import Mathlib

/-!
Verification development for the `locable` builder-agent core.

The definitions below are a shallow embedding of the agent loop of
`locable/agent/builder_agent.py` together with the sandboxed file tools of
`agent/tools.py` (the `locable` package imports the same helpers).  Python
strings are Lean `String`s, `pathlib` paths are parsed into segment lists,
the filesystem is an explicit association list threaded through every
operation, a raised Python exception is an `Except.error`, and the external
model and retrieval store are function-valued parameters.  Modelling
assumptions that prune irrelevant corner cases (no symlinks, text-only file
contents, aligned chroma result lists, integer-valued distance scores) are
recorded on the definitions they concern.
-/

set_option maxRecDepth 10000

namespace Locable

/-! ### Python string primitives

Core Lean `String` functions such as `splitOn` do not reduce inside the
kernel, so the Python string operations used by the source are modelled
directly on character lists by structural recursion. -/

/-- The double-quote character. -/
def dq : Char := Char.ofNat 34

/-- The single-quote character. -/
def sq : Char := Char.ofNat 39

/-- The backslash character. -/
def bsl : Char := Char.ofNat 92

/-- The opening-brace character. -/
def lbr : Char := Char.ofNat 123

/-- The closing-brace character. -/
def rbr : Char := Char.ofNat 125

/-- Does `pre` occur at the head of `s`? -/
def chStarts : List Char → List Char → Bool
  | [], _ => true
  | _ :: _, [] => false
  | p :: ps, c :: cs => p == c && chStarts ps cs

/-- Auxiliary loop for `pySplit`; `fuel` bounds the recursion and is always
at least the length of the remaining input plus one. -/
def splitChAux (sep : List Char) : Nat → List Char → List Char → List (List Char)
  | 0, acc, _ => [acc.reverse]
  | _ + 1, acc, [] => [acc.reverse]
  | fuel + 1, acc, c :: cs =>
    if chStarts sep (c :: cs) then
      acc.reverse :: splitChAux sep fuel [] ((c :: cs).drop sep.length)
    else
      splitChAux sep fuel (c :: acc) cs

/-- Python `s.split(sep)` for a non-empty separator: non-overlapping
left-to-right occurrences, keeping empty pieces. -/
def pySplit (s sep : String) : List String :=
  (splitChAux sep.toList (s.toList.length + 1) [] s.toList).map String.mk

/-- Auxiliary loop for `pyReplace`. -/
def replaceChAux (old new : List Char) : Nat → List Char → List Char
  | 0, cs => cs
  | _ + 1, [] => []
  | fuel + 1, c :: cs =>
    if chStarts old (c :: cs) then
      new ++ replaceChAux old new fuel ((c :: cs).drop old.length)
    else
      c :: replaceChAux old new fuel cs

/-- Python `s.replace(old, new)` for a non-empty `old`. -/
def pyReplace (s old new : String) : String :=
  String.mk (replaceChAux old.toList new.toList (s.toList.length + 1) s.toList)

/-- Python whitespace as recognised by `str.strip`. -/
def isPyWs (c : Char) : Bool :=
  c == ' ' || c == Char.ofNat 9 || c == Char.ofNat 10 || c == Char.ofNat 13 ||
  c == Char.ofNat 11 || c == Char.ofNat 12

/-- Python `s.strip()`. -/
def pyStrip (s : String) : String :=
  String.mk (((s.toList.dropWhile isPyWs).reverse.dropWhile isPyWs).reverse)

/-- ASCII lower-casing of one character (Python `str.lower` on the ASCII
subset actually used by the source). -/
def lowerCh (c : Char) : Char :=
  if 65 ≤ c.toNat ∧ c.toNat ≤ 90 then Char.ofNat (c.toNat + 32) else c

/-- Python `s.lower()` (ASCII model). -/
def pyLower (s : String) : String :=
  String.mk (s.toList.map lowerCh)

/-- Python `sub in s` for a non-empty `sub`. -/
def containsSub (s sub : String) : Bool :=
  (pySplit s sub).length > 1

/-! ### Paths and the filesystem -/

/-- A `pathlib` path: an absolute-path flag and the cleaned segments
(`pathlib` drops empty segments and lone dots at construction). -/
structure PyPath where
  absolute : Bool
  parts : List String
deriving Repr, DecidableEq

/-- Parse a POSIX path string the way `pathlib.Path` does.  The degenerate
double-slash root prefix of POSIX is not modelled. -/
def parsePath (s : String) : PyPath :=
  { absolute := chStarts "/".toList s.toList
    parts := (pySplit s "/").filter (fun seg => seg != "" && seg != ".") }

/-- One step of `Path.resolve` normalisation on an absolute segment list:
a parent segment pops the accumulator (resolving past the filesystem root
stays at the root), anything else is appended.  Symlinks are not modelled. -/
def resolveStep (acc : List String) (seg : String) : List String :=
  if seg = ".." then acc.dropLast else acc ++ [seg]

/-- `Path.resolve` on the segments of an absolute path. -/
def resolveParts (parts : List String) : List String :=
  parts.foldl resolveStep []

/-- Render an absolute resolved segment list the way `str(Path(...))` does. -/
def absString (parts : List String) : String :=
  "/" ++ String.intercalate "/" parts

/-- Boolean prefix test on segment lists (`Path.relative_to` succeeds on
normalised absolute paths exactly when the root's segments are a prefix). -/
def segsLe : List String → List String → Bool
  | [], _ => true
  | _ :: _, [] => false
  | a :: as_, b :: bs => a == b && segsLe as_ bs

/-- The filesystem state: file contents keyed by absolute resolved segment
lists, plus the set of directories created by the program.  Contents are
text only (the binary fallback of `read_file` is never reached by text). -/
structure FS where
  files : List (List String × String) := []
  dirs : List (List String) := []
deriving Repr, DecidableEq

/-- Look up a file's content. -/
def lookupFile (fs : FS) (p : List String) : Option String :=
  (fs.files.find? (fun kv => kv.1 = p)).map (fun kv => kv.2)

/-- Write (or overwrite) one file. -/
def setFile (fs : FS) (p : List String) (c : String) : FS :=
  { fs with files := (fs.files.filter (fun kv => kv.1 ≠ p)) ++ [(p, c)] }

/-- All ancestors of a directory, the root included. -/
def ancestors (d : List String) : List (List String) :=
  (List.range (d.length + 1)).map (fun i => d.take i)

/-- Python `os.makedirs(d, exist_ok=True)`: create every missing ancestor. -/
def mkdirs (fs : FS) (d : List String) : FS :=
  { fs with dirs := fs.dirs ++ ((ancestors d).filter (fun a => ¬ (a ∈ fs.dirs))) }

/-- Does a path exist, as a file, a created directory, or an ancestor of
either? -/
def pathExists (fs : FS) (p : List String) : Bool :=
  fs.files.any (fun kv => kv.1 == p || segsLe p kv.1) ||
  fs.dirs.any (fun d => d == p || segsLe p d)

/-! ### The sandboxed file tools of `agent/tools.py` -/

/-- Embedding of `_resolve_path` (tools.py lines 9-20): anchor a relative
path at the project root, resolve it, and raise `ValueError` when the
resolved path escapes the root. -/
def _resolve_path (root : List String) (path : String) : Except String (List String) :=
  let candidate := parsePath path
  let parts := if candidate.absolute then candidate.parts else root ++ candidate.parts
  let resolved := resolveParts parts
  if segsLe root resolved then .ok resolved
  else .error ("Path outside project root: " ++ absString resolved)

/-- Embedding of `write_file` (tools.py lines 23-29).  The `str(content)`
coercion is the identity because contents are modelled as text.  On a
sandbox violation the `ValueError` of `_resolve_path` propagates before any
mutation. -/
def write_file (root : List String) (fs : FS) (path content : String) :
    FS × Except String String :=
  match _resolve_path root path with
  | .error e => (fs, .error e)
  | .ok target =>
    let fs1 := mkdirs fs target.dropLast
    let fs2 := setFile fs1 target content
    (fs2, .ok ("Wrote " ++ absString target ++ " (" ++
      toString content.utf8ByteSize ++ " bytes)"))

/-- Embedding of `read_file` (tools.py lines 32-40): a missing file is a
returned error string, never an exception; a sandbox violation propagates. -/
def read_file (root : List String) (fs : FS) (path : String) :
    Except String String :=
  match _resolve_path root path with
  | .error e => .error e
  | .ok target =>
    match lookupFile fs target with
    | some text => .ok text
    | none => .ok ("ERROR: file not found: " ++ absString target)

/-- Embedding of `list_files` (tools.py lines 43-57): enumerate the regular
files strictly under the resolved base, as paths relative to the root. -/
def list_files (root : List String) (fs : FS) (base : String := ".") :
    Except String (List String) :=
  match _resolve_path root base with
  | .error e => .error e
  | .ok rbase =>
    if pathExists fs rbase then
      .ok (((fs.files.filter (fun kv => segsLe rbase kv.1 && kv.1 != rbase)).map
        (fun kv => String.intercalate "/" (kv.1.drop root.length))))
    else .ok []

/-! ### JSON values, `json.loads` and `json.dumps`

The agent decodes model-produced JSON with `json.loads`.  The embedding
parses the integer/string/bool/null/array/object fragment of JSON (the
concrete payloads exchanged with the tools; float literals are not
modelled). -/

/-- A decoded JSON value (Python object produced by `json.loads`). -/
inductive JVal where
  | str (s : String)
  | num (n : Int)
  | jbool (b : Bool)
  | null
  | arr (xs : List JVal)
  | obj (kvs : List (String × JVal))
deriving Repr

/-- A Python dict with string keys, as produced by decoding a JSON object. -/
abbrev JDict := List (String × JVal)

/-- Python `d.get(k)`. -/
def jLookup (d : JDict) (k : String) : Option JVal :=
  (d.find? (fun kv => kv.1 == k)).map (fun kv => kv.2)

/-- Python truthiness of a decoded JSON value. -/
def jTruthy : JVal → Bool
  | .str s => s != ""
  | .num n => n != 0
  | .jbool b => b
  | .null => false
  | .arr xs => ¬ xs.isEmpty
  | .obj kvs => ¬ kvs.isEmpty

/-- JSON whitespace. -/
def isJWs (c : Char) : Bool :=
  c == ' ' || c == Char.ofNat 9 || c == Char.ofNat 10 || c == Char.ofNat 13

/-- Decode a JSON string body (after the opening quote), handling the
simple escapes; `fuel` bounds the recursion. -/
def parseJStr : Nat → List Char → List Char → Option (String × List Char)
  | 0, _, _ => none
  | fuel + 1, acc, cs =>
    match cs with
    | [] => none
    | c :: rest =>
      if c == dq then some (String.mk acc.reverse, rest)
      else if c == bsl then
        match rest with
        | [] => none
        | e :: rest2 =>
          if e == 'n' then parseJStr fuel (Char.ofNat 10 :: acc) rest2
          else if e == 't' then parseJStr fuel (Char.ofNat 9 :: acc) rest2
          else if e == 'r' then parseJStr fuel (Char.ofNat 13 :: acc) rest2
          else if e == dq then parseJStr fuel (dq :: acc) rest2
          else if e == bsl then parseJStr fuel (bsl :: acc) rest2
          else if e == '/' then parseJStr fuel ('/' :: acc) rest2
          else none
      else parseJStr fuel (c :: acc) rest

/-- Is `c` an ASCII digit? -/
def isDigitCh (c : Char) : Bool :=
  decide (48 ≤ c.toNat ∧ c.toNat ≤ 57)

/-- Numeric value of a digit string. -/
def digitsToNat (ds : List Char) : Nat :=
  ds.foldl (fun acc c => acc * 10 + (c.toNat - 48)) 0

/-- Decode a JSON integer literal starting at `cs` (sign already consumed). -/
def parseJNum (neg : Bool) (cs : List Char) : Option (JVal × List Char) :=
  let ds := cs.takeWhile isDigitCh
  let rest := cs.dropWhile isDigitCh
  if ds.isEmpty then none
  else some (.num (if neg then -(Int.ofNat (digitsToNat ds)) else Int.ofNat (digitsToNat ds)), rest)

/-- Which production the JSON decoder is working on. -/
inductive PMode where
  | val
  | arrItems
  | objItems

/-- Intermediate result of one JSON production. -/
inductive PRes where
  | v (x : JVal)
  | vs (xs : List JVal)
  | kvs (l : List (String × JVal))

/-- Recursive-descent JSON decoder; `fuel` bounds the call depth and every
recursive call decrements it, so the definition is structural and reduces
in the kernel. -/
def parseP (fuel : Nat) (mode : PMode) (cs0 : List Char) : Option (PRes × List Char) :=
  match fuel, mode with
  | 0, _ => none
  | fuel + 1, .val =>
    let cs := cs0.dropWhile isJWs
    match cs with
    | [] => none
    | c :: rest =>
      if c == dq then (parseJStr (rest.length + 1) [] rest).map (fun p => (.v (.str p.1), p.2))
      else if c == lbr then
        let cs1 := rest.dropWhile isJWs
        match cs1 with
        | [] => none
        | c1 :: rest1 =>
          if c1 == rbr then some (.v (.obj []), rest1)
          else
            (parseP fuel .objItems cs1).bind (fun p =>
              match p.1 with
              | .kvs l => some (.v (.obj l), p.2)
              | _ => none)
      else if c == '[' then
        let cs1 := rest.dropWhile isJWs
        match cs1 with
        | [] => none
        | c1 :: rest1 =>
          if c1 == ']' then some (.v (.arr []), rest1)
          else
            (parseP fuel .arrItems cs1).bind (fun p =>
              match p.1 with
              | .vs l => some (.v (.arr l), p.2)
              | _ => none)
      else if chStarts "true".toList cs then some (.v (.jbool true), cs.drop 4)
      else if chStarts "false".toList cs then some (.v (.jbool false), cs.drop 5)
      else if chStarts "null".toList cs then some (.v .null, cs.drop 4)
      else if c == '-' then (parseJNum true rest).map (fun p => (.v p.1, p.2))
      else if isDigitCh c then (parseJNum false cs).map (fun p => (.v p.1, p.2))
      else none
  | fuel + 1, .arrItems =>
    (parseP fuel .val cs0).bind (fun vp =>
      match vp.1 with
      | .v v =>
        let afterVal := vp.2.dropWhile isJWs
        match afterVal with
        | ',' :: more =>
          (parseP fuel .arrItems more).bind (fun rp =>
            match rp.1 with
            | .vs l => some (.vs (v :: l), rp.2)
            | _ => none)
        | ']' :: more => some (.vs [v], more)
        | _ => none
      | _ => none)
  | fuel + 1, .objItems =>
    let cs := cs0.dropWhile isJWs
    match cs with
    | [] => none
    | c :: rest =>
      if c == dq then
        (parseJStr (rest.length + 1) [] rest).bind (fun kp =>
          let afterKey := kp.2.dropWhile isJWs
          match afterKey with
          | ':' :: vs0 =>
            (parseP fuel .val vs0).bind (fun vp =>
              match vp.1 with
              | .v v =>
                let afterVal := vp.2.dropWhile isJWs
                match afterVal with
                | ',' :: more =>
                  (parseP fuel .objItems more).bind (fun rp =>
                    match rp.1 with
                    | .kvs l => some (.kvs ((kp.1, v) :: l), rp.2)
                    | _ => none)
                | cc :: more => if cc == rbr then some (.kvs [(kp.1, v)], more) else none
                | [] => none
              | _ => none)
          | _ => none)
      else none

/-- Embedding of `json.loads`: decode one value and require the remaining
input to be whitespace. -/
def jsonParse (s : String) : Option JVal :=
  match parseP (2 * s.toList.length + 8) .val s.toList with
  | some (.v v, rest) => if (rest.dropWhile isJWs).isEmpty then some v else none
  | _ => none

/-- Escape one character the way `json.dumps` does (the escapes that occur
in the payloads considered). -/
def jsonEscCh (c : Char) : List Char :=
  if c == dq then [bsl, dq]
  else if c == bsl then [bsl, bsl]
  else if c == Char.ofNat 10 then [bsl, 'n']
  else if c == Char.ofNat 9 then [bsl, 't']
  else if c == Char.ofNat 13 then [bsl, 'r']
  else [c]

/-- Escape a string the way `json.dumps` does. -/
def jsonEsc (s : String) : String :=
  String.mk (s.toList.map jsonEscCh).flatten

/-- Python `str()` of a decoded JSON value, for the non-text contents fed to
`write_file`; container reprs are abbreviated (never exercised here). -/
def pyStr : JVal → String
  | .str s => s
  | .num n => toString n
  | .jbool true => "True"
  | .jbool false => "False"
  | .null => "None"
  | .arr _ => "[...]"
  | .obj _ => "..."

/-! ### Conversation messages -/

/-- One conversation entry, mirroring the message dicts of the source. A
`none` field stands for an absent (or `None`-valued) key. -/
structure Message where
  role : String
  content : String := ""
  name : Option String := none
  tool_call_id : Option JVal := none
  tool_calls : Option (List JDict) := none
deriving Repr

/-- The agent's mutable state: the message log and the filesystem. -/
structure AgentState where
  messages : List Message
  fs : FS
deriving Repr

/-! ### The agent's tool surface (`BuilderAgent.execute_tool`) -/

/-- Result of a tool helper: a string or (for `list_files`) a list. -/
inductive ToolVal where
  | str (s : String)
  | strs (l : List String)
deriving Repr, DecidableEq

/-- Python falsiness of an optional decoded value (`if not path:`). -/
def jvalFalsy : Option JVal → Bool
  | none => true
  | some v => ¬ jTruthy v

/-- The Bootstrap stylesheet CDN reference rewritten by `execute_tool`. -/
def cdnCss : String :=
  "https://cdn.jsdelivr.net/npm/bootstrap@5.3.2/dist/css/bootstrap.min.css"

/-- The Bootstrap script-bundle CDN reference rewritten by `execute_tool`. -/
def cdnJs : String :=
  "https://cdn.jsdelivr.net/npm/bootstrap@5.3.2/dist/js/bootstrap.bundle.min.js"

/-- Rewrite the two known Bootstrap CDN references to local static paths
(builder_agent.py lines 70-80). -/
def rewriteCDN (content : String) : String :=
  pyReplace (pyReplace content cdnCss "static/bootstrap.min.css")
    cdnJs "static/bootstrap.bundle.min.js"

/-- The `site/` anchoring step of `execute_tool` (builder_agent.py lines
63-65).  For an absolute `p` the Python code also prepends, but
`Path("site") / p` returns `p` unchanged when `p` is absolute (and
`p.parts[0]` is the root marker, never `"site"`), so the net effect is the
identity. -/
def anchorSite (p : PyPath) : PyPath :=
  if p.absolute then p
  else if p.parts.head? = some "site" then p
  else { absolute := false, parts := "site" :: p.parts }

/-- The resolved target `full = (ROOT_DIR / p).resolve()` that
`execute_tool` computes for a `write_file` path (lines 62-66). -/
def site_anchor_target (root : List String) (path : String) : List String :=
  let p := anchorSite (parsePath path)
  resolveParts (if p.absolute then p.parts else root ++ p.parts)

/-- Python `PurePath.suffix` of one file name: the part from the last dot,
when that dot is neither the first nor the last character. -/
def pySuffix (name : String) : String :=
  let cs := name.toList
  match ((List.range cs.length).filter (fun i => cs.getD i ' ' == '.')).getLast? with
  | some i => if 0 < i ∧ i < cs.length - 1 then String.mk (cs.drop i) else ""
  | none => ""

/-- The content actually handed to `write_file` for a text content: the CDN
rewrite applies exactly when the target has an `.html` suffix (lines
70-80; the `isinstance(content, str)` guard is true for text). -/
def write_content (target : List String) (content : String) : String :=
  if pyLower (pySuffix (target.getLastD "")) = ".html" then rewriteCDN content else content

/-- Embedding of `BuilderAgent.execute_tool` (builder_agent.py lines
50-91).  Note the order on the `write_file` branch: the parent directories
of the anchored target are created with `os.makedirs` before
`write_file`'s own `_resolve_path` sandbox check can raise. -/
def execute_tool (root : List String) (fs : FS) (name : Option String) (args : JVal) :
    FS × Except String ToolVal :=
  if name = some "write_file" then
    match args with
    | .obj d =>
      let pathv := jLookup d "path"
      if jvalFalsy pathv then (fs, .ok (.str "ERROR: missing path"))
      else
        match pathv with
        | some (.str path) =>
          let target := site_anchor_target root path
          let fs1 := mkdirs fs target.dropLast
          let content :=
            match jLookup d "content" with
            | some (.str s) => write_content target s
            | some v => pyStr v
            | none => ""
          let wr := write_file root fs1 (absString target) content
          (wr.1, wr.2.map .str)
        | _ => (fs, .error "TypeError: argument should be a str")
    | _ => (fs, .error "AttributeError: args has no attribute get")
  else if name = some "read_file" then
    match args with
    | .obj d =>
      match jLookup d "path" with
      | some (.str path) => (fs, (read_file root fs path).map .str)
      | _ => (fs, .error "TypeError: argument should be a str")
    | _ => (fs, .error "AttributeError: args has no attribute get")
  else if name = some "list_files" then
    (fs, (list_files root fs).map .strs)
  else
    (fs, .ok (.str ("Unknown tool: " ++
      (match name with | some s => s | none => "None"))))

/-- The `json.dumps({"result": result})` envelope of a tool message, for
the two result shapes that occur. -/
def resultContent : ToolVal → String
  | .str s => "\x7b\x22result\x22: \x22" ++ jsonEsc s ++ "\x22\x7d"
  | .strs l => "\x7b\x22result\x22: [" ++
      String.intercalate ", " (l.map (fun x => "\x22" ++ jsonEsc x ++ "\x22")) ++ "]\x7d"

/-- The tail of `_exec_tool_call` (lines 180-189): a raised exception
propagates with the filesystem mutated so far and no message appended; a
returned value is wrapped in the `{"result": ...}` envelope and appended
as the tool message correlated by the call's id (synthesized if absent). -/
def finishToolCall (st : AgentState) (call : JDict) (tool_name : Option String)
    (r : FS × Except String ToolVal) : AgentState × Option String :=
  match r.2 with
  | .error e => ({ st with fs := r.1 }, some e)
  | .ok v =>
    ({ messages := st.messages ++ [{
        role := "tool"
        content := resultContent v
        name := tool_name
        tool_call_id := some ((jLookup call "id").getD (.str ("tool_" ++
          (match tool_name with | some s => s | none => "None")))) }]
       fs := r.1 }, none)

/-- Embedding of `BuilderAgent._exec_tool_call` (lines 162-189): normalise
one model-produced call dict, execute it, and append the tool message.
There is no exception handling around `execute_tool`, so a raise
propagates with the filesystem mutations made so far and without a tool
message.  A non-string tool name is collapsed to `none` (it fails every
dispatch comparison either way). -/
def _exec_tool_call (root : List String) (st : AgentState) (call : JDict) :
    AgentState × Option String :=
  let fn : JDict :=
    match jLookup call "function" with
    | some (.obj d) => d
    | _ => []
  let nameVal : Option JVal :=
    match jLookup fn "name" with
    | some v => if jTruthy v then some v else jLookup call "name"
    | none => jLookup call "name"
  let tool_name : Option String :=
    match nameVal with
    | some (.str s) => some s
    | _ => none
  let raw_args := if fn.isEmpty then jLookup call "arguments" else jLookup fn "arguments"
  let args : JVal :=
    match raw_args with
    | some (.obj d) => .obj d
    | some (.str s) =>
      match jsonParse s with
      | some v => v
      | none => .obj []
    | _ => .obj []
  finishToolCall st call tool_name (execute_tool root st.fs tool_name args)

/-! ### Embedded-JSON tool-call extraction -/

/-- The fenced fragments inspected by `_execute_json_tool_calls` (lines
204-212): split on the opening fence marker, and for each later block take
the text up to the closing fence, or all of it when unclosed, stripped. -/
def fragmentsOf (text : String) : List String :=
  ((pySplit text "```json").drop 1).map (fun b => pyStrip ((pySplit b "```").headD b))

/-- The literal substring `"name"` (double quotes included) that the
extractor requires textually before attempting any decode. -/
def nameKeyLit : String := "\x22name\x22"

/-- Decide whether one fragment is accepted (lines 214-231): non-empty,
contains the double-quoted name key textually, decodes strictly or after
the single-to-double-quote repair, is a mapping, and has a `name` key. -/
def parseFragment (s : String) : Option JDict :=
  if s == "" || ¬ containsSub s nameKeyLit then none
  else
    let parsed :=
      match jsonParse s with
      | some v => some v
      | none => jsonParse (pyReplace s (String.mk [sq]) (String.mk [dq]))
    match parsed with
    | some (.obj d) => if (jLookup d "name").isSome then some d else none
    | _ => none

/-- Execute the accepted fragments in order, tracking whether anything ran
and propagating a raise. -/
def execJsonLoop (root : List String) : AgentState → Bool → List String →
    AgentState × Bool × Option String
  | st, executed, [] => (st, executed, none)
  | st, executed, f :: rest =>
    match parseFragment f with
    | none => execJsonLoop root st executed rest
    | some d =>
      match _exec_tool_call root st d with
      | (st', none) => execJsonLoop root st' true rest
      | (st', some e) => (st', executed, some e)

/-- Embedding of `BuilderAgent._execute_json_tool_calls` (lines 194-239). -/
def _execute_json_tool_calls (root : List String) (st : AgentState) (text : String) :
    AgentState × Bool × Option String :=
  execJsonLoop root st false (fragmentsOf text)

/-! ### Model responses and the main loop -/

/-- The value found under a `tool_calls` key: a lone dict, a list of
dicts, or some other (truthy) object. -/
inductive TCField where
  | dict (d : JDict)
  | list (l : List JDict)
  | other
deriving Repr

/-- The `message` part of a model response. -/
structure AssistantMsg where
  role : Option String := none
  content : Option String := none
  tool_calls : Option TCField := none
deriving Repr

/-- A model response.  A `message` key that is present but `None` is not
modelled (it would make line 283 of the source raise on its own). -/
structure ModelResp where
  message : Option AssistantMsg := none
  tool_calls : Option TCField := none
deriving Repr

/-- Python truthiness of a `tool_calls` value. -/
def tcTruthy : Option TCField → Bool
  | none => false
  | some (.dict d) => ¬ d.isEmpty
  | some (.list l) => ¬ l.isEmpty
  | some .other => true

/-- The `tool_calls` lookup chain of `ask` (lines 280-284): the top-level
key, else the assistant message's key (the third arm of the Python `or`
repeats the second). -/
def effToolCalls (resp : ModelResp) : Option TCField :=
  let a := resp.tool_calls
  let b := match resp.message with | some m => m.tool_calls | none => none
  if tcTruthy a then a else b

/-- Normalise a `tool_calls` value to a list of call dicts (lines
289-294). -/
def normCalls : Option TCField → List JDict
  | some (.dict d) => [d]
  | some (.list l) => l
  | _ => []

/-- Execute the calls of one model turn in order (lines 305-306); a raise
aborts the batch and propagates. -/
def execBatch (root : List String) : AgentState → List JDict → AgentState × Option String
  | st, [] => (st, none)
  | st, c :: cs =>
    match _exec_tool_call root st c with
    | (st', none) => execBatch root st' cs
    | (st', some e) => (st', some e)

/-- How one `ask` invocation ends: a returned answer string, or a Python
exception propagating out of the loop. -/
inductive Outcome where
  | answer (s : String)
  | raised (e : String)
deriving Repr, DecidableEq

/-- The empty assistant dict used as the default for a missing `message`. -/
def emptyAssistant : AssistantMsg := {}

/-- The while-loop of `BuilderAgent.ask` (lines 260-322).  The source
increments `loop_guard` from 0 and returns the stalled-out string when it
exceeds 12, so the loop body runs at most 12 times; here `fuel` counts the
remaining permitted round trips and `0` is the guard-exceeded exit. -/
def askLoop (root : List String) (send : List Message → ModelResp) :
    Nat → AgentState → AgentState × Outcome
  | 0, st => (st, .answer "Stopped after max iterations.")
  | fuel + 1, st =>
    let resp := send st.messages
    let asst := resp.message.getD emptyAssistant
    let content := asst.content.getD ""
    let tc := effToolCalls resp
    if tcTruthy tc then
      let calls := normCalls tc
      let st1 := { st with messages := st.messages ++ [{
        role := asst.role.getD "assistant", content := content, tool_calls := some calls }] }
      match execBatch root st1 calls with
      | (st2, none) => askLoop root send fuel st2
      | (st2, some e) => (st2, .raised e)
    else if content == "" then
      ({ st with messages := st.messages ++ [{ role := asst.role.getD "assistant", content := content }] },
       .answer content)
    else
      match _execute_json_tool_calls root st content with
      | (st', _, some e) => (st', .raised e)
      | (st', true, none) => askLoop root send fuel st'
      | (st', false, none) =>
        ({ st' with messages := st'.messages ++ [{ role := asst.role.getD "assistant", content := content }] },
         .answer content)

/-! ### Retrieval grounding -/

/-- One template hit of `search_templates`; the numeric distance is
modelled as an integer (so the `%.3f` format prints `n.000`), a `none`
distance covers an absent or non-numeric score. -/
structure TemplateHit where
  template : Option String := none
  description : Option String := none
  distance : Option Int := none
deriving Repr

/-- One style sample of `fetch_css_chunks`. -/
structure CssChunk where
  text : Option String := none
deriving Repr

/-- One metadata record of a search hit. -/
structure MetaRec where
  template : Option String := none
  source : Option String := none
deriving Repr

/-- A (truthy) chroma search result: one row of documents and metadata per
query.  Rows are assumed aligned (a short metadata row would raise
`IndexError` in the source; that malformed shape is not modelled). -/
structure SearchRes where
  documents : List (List String) := []
  metadatas : List (List (Option MetaRec)) := []
deriving Repr

/-- The retrieval capability; each operation may raise. -/
structure Store where
  search_templates : String → Nat → Except String (List TemplateHit)
  fetch_css_chunks : String → Nat → Except String (List CssChunk)
  search : String → Nat → Bool → Except String (Option SearchRes)

/-- Python truthiness of an optional string. -/
def strTruthy : Option String → Bool
  | some s => s != ""
  | none => false

/-- Render an optional string inside an f-string (`None` when absent). -/
def optStr : Option String → String
  | some s => s
  | none => "None"

/-- The formatted distance column: `%.3f` for a numeric score, else
`"n/a"`. -/
def distTxt : Option Int → String
  | some n => toString n ++ ".000"
  | none => "n/a"

/-- The template hits obtained fail-soft (lines 105-108): a raise yields
the empty list. -/
def templateHitsOf (store : Store) (q : String) : List TemplateHit :=
  match store.search_templates q 3 with
  | .ok l => l
  | .error _ => []

/-- The general search result obtained fail-soft (lines 131-134): a raise
yields `None`. -/
def searchHitsOf (store : Store) (q : String) (k : Nat) : Option SearchRes :=
  match store.search q k true with
  | .ok h => h
  | .error _ => none

/-- The first documents row of the general search, empty when the search
failed or returned nothing. -/
def retrievedDocsOf (store : Store) (q : String) (k : Nat) : List String :=
  match searchHitsOf store q k with
  | none => []
  | some h => h.documents.headD []

/-- The reserved tag marking retrieval-context messages. -/
def retrieval_tag : String := "retrieval"

/-- The `snippet_parts` list built by `_append_retrieval_context` (lines
102-144): the template-suggestion section, the CSS-sample section and the
component-chunk section, each fail-soft. -/
def snippetPartsOf (store : Store) (user_input : String) (k : Nat) : List String :=
  let template_hits := templateHitsOf store user_input
  let parts1 : List String :=
    if template_hits.isEmpty then []
    else
      "--- Template suggestions (by description distance) ---" ::
      template_hits.map (fun hit =>
        optStr hit.template ++ ": " ++ optStr hit.description ++
          " (dist=" ++ distTxt hit.distance ++ ")")
  let parts2 : List String :=
    if template_hits.isEmpty then []
    else
      let top := (template_hits.headD ({} : TemplateHit)).template
      if strTruthy top then
        let t := top.getD ""
        let css :=
          match store.fetch_css_chunks t 3 with
          | .ok l => l
          | .error _ => []
        if css.isEmpty then []
        else
          ("CSS samples from " ++ t ++ " (trimmed):") ::
          css.enum.map (fun p =>
            "[CSS " ++ toString (p.1 + 1) ++ "] " ++
              pyReplace ((p.2.text.getD "").take 420) "\n" " ")
      else []
  let hits := searchHitsOf store user_input k
  let parts3 : List String :=
    match hits with
    | none => []
    | some h =>
      let docs := h.documents.headD []
      let metas := h.metadatas.headD []
      if docs.isEmpty then []
      else
        "--- Retrieved component chunks ---" ::
        (docs.take k).enum.map (fun p =>
          let meta := (metas.getD p.1 none).getD ({} : MetaRec)
          let label :=
            if strTruthy meta.template then meta.template.getD ""
            else if strTruthy meta.source then meta.source.getD "" else ""
          "[" ++ toString (p.1 + 1) ++ "] " ++ label ++ " :: " ++ p.2.take 600)
  parts1 ++ parts2 ++ parts3

/-- Embedding of `BuilderAgent._append_retrieval_context` (lines 96-157):
build the three snippet sections fail-soft, and only when at least one is
non-empty drop every message carrying the retrieval tag and append the new
tagged system message.  Returns the new message list and the boolean the
method returns. -/
def _append_retrieval_context (store : Store) (msgs : List Message)
    (user_input : String) (k : Nat) : List Message × Bool :=
  let snippet_parts := snippetPartsOf store user_input k
  if snippet_parts.isEmpty then (msgs, false)
  else
    let snippet := String.intercalate "\n\n" snippet_parts ++ "\n"
    ((msgs.filter (fun m => m.name != some retrieval_tag)) ++
      [{ role := "system", name := some retrieval_tag, content := snippet }], true)

/-- Embedding of `BuilderAgent.ask` (lines 244-322): append the user
message, refresh the retrieval context with `k = 20`, and run the loop
with the 12-round-trip guard. -/
def ask (root : List String) (store : Store) (send : List Message → ModelResp)
    (st : AgentState) (user_input : String) : AgentState × Outcome :=
  let st1 := { st with messages := st.messages ++ [({ role := "user", content := user_input } : Message)] }
  let st2 := { st1 with messages := (_append_retrieval_context store st1.messages user_input 20).1 }
  askLoop root send 12 st2

/-- The state of a fresh `BuilderAgent` (lines 38-39): the system prompt as
the sole message, an untouched filesystem. -/
def initState (prompt : String) : AgentState :=
  { messages := [{ role := "system", content := prompt }], fs := {} }

/-! ### Sessions and reachable states -/

/-- A model client whose replies carry the role `"assistant"` (or omit the
role, which the source defaults to `"assistant"`).  The source trusts the
response's `role` field verbatim, so this is the well-behaved-transport
assumption of the message-log invariants. -/
def GoodSend (send : List Message → ModelResp) : Prop :=
  ∀ msgs, (((send msgs).message.getD emptyAssistant).role.getD "assistant") = "assistant"

/-- The conversation states an agent session can be in: the fresh state,
and the state after any `ask` driven by any store and any role-well-behaved
model. -/
inductive Reachable (root : List String) (prompt : String) : AgentState → Prop where
  | init : Reachable root prompt (initState prompt)
  | step (st : AgentState) (store : Store) (send : List Message → ModelResp) (input : String) :
      Reachable root prompt st → GoodSend send →
      Reachable root prompt (ask root store send st input).1

/-- The system-prompt message seeded at session start. -/
def sysPromptMsg (prompt : String) : Message :=
  { role := "system", content := prompt }

/-- The system-message discipline the conversation actually maintains: the
prompt message is first and is the only system-role message without the
retrieval tag, and at most one retrieval-tagged system message exists. -/
def SysInv (prompt : String) (msgs : List Message) : Prop :=
  (∃ t, msgs = sysPromptMsg prompt :: t ∧
    ∀ m ∈ t, m.role = "system" → m.name = some retrieval_tag) ∧
  (msgs.filter (fun m => m.role == "system" && m.name == some retrieval_tag)).length ≤ 1

/-! ### Concrete fixtures used by the claim theorems -/

/-- A retrieval store whose every operation raises. -/
def storeDown : Store :=
  { search_templates := fun _ _ => .error "connection refused"
    fetch_css_chunks := fun _ _ => .error "connection refused"
    search := fun _ _ _ => .error "connection refused" }

/-- A store that finds one template but fails on the other sub-steps. -/
def storeOneTemplate : Store :=
  { search_templates := fun _ _ =>
      .ok [{ template := some "tpl", description := some "a template", distance := some 1 }]
    fetch_css_chunks := fun _ _ => .error "connection refused"
    search := fun _ _ _ => .error "connection refused" }

/-- A model that answers in plain text, never calling tools. -/
def sendPlain : List Message → ModelResp :=
  fun _ => { message := some { content := some "done" } }

/-- The structured call dict requesting `list_files`. -/
def listFilesCall : JDict := [("name", JVal.str "list_files")]

/-- A model that requests `list_files` on every single turn. -/
def sendListFiles : List Message → ModelResp :=
  fun _ => { tool_calls := some (.list [listFilesCall]) }

/-- A model that on every turn requests a `write_file` whose path resolves
outside the project root. -/
def sendEscapingWrite : List Message → ModelResp :=
  fun _ => { tool_calls := some (.list [[("name", JVal.str "write_file"),
    ("arguments", JVal.obj [("path", JVal.str "../../boom.txt"),
      ("content", JVal.str "x")])]]) }

/-- A model that on every turn requests a `read_file` whose path resolves
outside the project root. -/
def sendEscapingRead : List Message → ModelResp :=
  fun _ => { tool_calls := some (.list [[("name", JVal.str "read_file"),
    ("arguments", JVal.obj [("path", JVal.str "../../secret.txt")])]]) }

/-- Assistant free text with two fenced JSON blocks: a valid double-quoted
call, then a single-quote-dialect call with no closing fence. -/
def scenarioText : String :=
  "Sure: ```json\n\x7b\x22name\x22: \x22read_file\x22, \x22arguments\x22: \x7b\x22path\x22: \x22a\x22\x7d\x7d\n``` and ```json\n\x7b\x27name\x27: \x27list_files\x27\x7d"

/-- The stripped single-quote fragment of `scenarioText`. -/
def sqFragment : String := "\x7b\x27name\x27: \x27list_files\x27\x7d"

/-- A leftover retrieval-context message from an earlier turn. -/
def staleRetrievalMsg : Message :=
  { role := "system", name := some retrieval_tag, content := "old grounding" }

/-! ### Claim theorems -/

/-- C1: the claim states that each Tool Surface operation rejects every
path resolving outside the authorized root with no filesystem mutation, no
directory created included.  The rejection happens, but on the
`write_file` branch of `execute_tool` the parent directories of the
anchored target are created by `os.makedirs` before `write_file`'s
`_resolve_path` check raises: for the path `"../../evil/index.html"` under
root `/r` the directory `/evil` — outside the root — is created, and only
then does the sandbox `ValueError` fire (no file is written). -/
theorem C1_escaping_write_creates_directory_before_rejection :
    execute_tool ["r"] {} (some "write_file")
      (.obj [("path", .str "../../evil/index.html"), ("content", .str "x")]) =
      ({ files := [], dirs := [[], ["evil"]] },
        .error "Path outside project root: /evil/index.html") ∧
    segsLe ["r"] ["evil"] = false := by
  exact ⟨rfl, by decide⟩

/-- C2: a sandbox violation during a tool call is not converted into a
tool-result message — nothing in `_exec_tool_call` or `ask` catches the
`ValueError` of `_resolve_path`, so it propagates out of `ask`: with a
model requesting one escaping `write_file`, `ask` ends in a raise and no
tool message is ever appended. -/
theorem C2_ask_raises_on_sandbox_violation :
    (ask ["r"] storeDown sendEscapingWrite (initState "p") "build a site").2 =
      .raised "Path outside project root: /boom.txt" ∧
    ((ask ["r"] storeDown sendEscapingWrite (initState "p") "build a site").1.messages.filter
      (fun m => m.role == "tool")).length = 0 := by
  exact ⟨by decide, by decide⟩

/-- C3 counterexample: a model that returns a (sandbox-escaping) tool call
on every single turn makes `ask` terminate by raising, not by returning
the stalled-out result string. -/
theorem C3_counterexample_raising_tool_call :
    (ask ["r"] storeDown sendEscapingRead (initState "p") "go").2 ≠
      Outcome.answer "Stopped after max iterations." := by
  decide

/-- C4: the structured normalizer does yield 1 call from a lone dict and 2
from a list of two, and no accepted fragment ever lacks a `name` key; but
on the embedded-text scenario the extractor yields only 1 ToolCall, not 2:
the single-quote block contains no double-quoted `"name"` substring, so
the textual pre-filter at line 214 skips it before the single-to-double
quote repair (which, as shown, would decode it) can run. -/
theorem C4_normalizer_extraction_counts :
    (∀ c : JDict, normCalls (some (.dict c)) = [c]) ∧
    (∀ c1 c2 : JDict, normCalls (some (.list [c1, c2])) = [c1, c2]) ∧
    (fragmentsOf scenarioText).length = 2 ∧
    ((fragmentsOf scenarioText).filterMap parseFragment).length = 1 ∧
    ((_execute_json_tool_calls ["r"] (initState "p") scenarioText).1.messages.filter
      (fun m => m.role == "tool")).length = 1 ∧
    parseFragment sqFragment = none ∧
    containsSub sqFragment nameKeyLit = false ∧
    (jsonParse (pyReplace sqFragment (String.mk [sq]) (String.mk [dq]))).isSome = true ∧
    (∀ s : String, ((parseFragment s).all (fun d => (jLookup d "name").isSome)) = true) := by
  refine ⟨fun c => rfl, fun c1 c2 => rfl, by decide, ?_, by decide, rfl, by decide, by decide, ?_⟩
  · rfl
  · intro s
    unfold parseFragment
    split
    · rfl
    · generalize (match jsonParse s with
        | some v => some v
        | none => jsonParse (pyReplace s (String.mk [sq]) (String.mk [dq]))) = p
      cases p with
      | none => rfl
      | some v =>
        cases v with
        | obj d =>
          show Option.all (fun d => (jLookup d "name").isSome)
            (if (jLookup d "name").isSome = true then some d else none) = true
          by_cases hd : (jLookup d "name").isSome = true
          · simp [hd, Option.all]
          · simp [hd]
        | str s1 => rfl
        | num n => rfl
        | jbool b => rfl
        | null => rfl
        | arr xs => rfl

/-- C7: when every retrieval operation raises, each sub-step is treated as
empty, nothing propagates (the embedding of the injector is a total
function by construction of the per-step `try/except`), and with all
sub-steps empty no context message is appended at all; a store failing
only on the later sub-steps still injects the template section. -/
theorem C7_retrieval_outage_is_fail_soft :
    (∀ (e1 e2 e3 : String) (msgs : List Message) (q : String) (k : Nat),
      _append_retrieval_context
        { search_templates := fun _ _ => .error e1
          fetch_css_chunks := fun _ _ => .error e2
          search := fun _ _ _ => .error e3 } msgs q k = (msgs, false)) ∧
    (∀ (q : String) (k : Nat),
      (_append_retrieval_context storeOneTemplate [] q k).2 = true) := by
  exact ⟨fun e1 e2 e3 msgs q k => rfl, fun q k => rfl⟩

/-- C5 counterexample: retrieval grounding is injected as a message with
role `system` (line 155), so one ordinary `ask` against a store with one
template hit leaves a reachable conversation holding two system-role
messages — the claim's "exactly one, never a second added" is false. -/
theorem C5_counterexample_second_system_message :
    Reachable ["r"] "p" (ask ["r"] storeOneTemplate sendPlain (initState "p") "hi").1 ∧
    (((ask ["r"] storeOneTemplate sendPlain (initState "p") "hi").1.messages.filter
      (fun m => m.role == "system")).length = 2) := by
  constructor
  · exact Reachable.step _ _ _ _ Reachable.init (fun _ => rfl)
  · decide

/-- C9 counterexample: an absolute path whose first segment is not
`"site"` is not anchored under the `site/` subtree — `Path("site") / p`
leaves an absolute `p` unchanged, so the claim's "for every path whose
first segment is not `site`" is too broad. -/
theorem C9_counterexample_absolute_path_not_anchored :
    (parsePath "/x.txt").parts.head? ≠ some "site" ∧
    site_anchor_target ["r"] "/x.txt" = ["x.txt"] ∧
    segsLe (["r"] ++ ["site"]) (site_anchor_target ["r"] "/x.txt") = false := by
  refine ⟨by decide, by decide, by decide⟩

/-- An HTML page referencing the two Bootstrap CDN assets. -/
def htmlWithCdn : String :=
  "<link href=\x22" ++ cdnCss ++ "\x22><script src=\x22" ++ cdnJs ++ "\x22></script>"

/-- The same page after the CDN references are localised. -/
def htmlLocal : String :=
  "<link href=\x22static/bootstrap.min.css\x22><script src=\x22static/bootstrap.bundle.min.js\x22></script>"

/-- C9 (amended): for every relative path whose first segment is not
`site`, the write target is the site-anchored resolution of the path; an
`.html` target has the two CDN references rewritten before writing; and a
concrete end-to-end write of `index.html` lands in `site/index.html` with
parents created and content localised. -/
theorem C9_write_file_site_anchoring (root : List String) (path : String)
    (hrel : (parsePath path).absolute = false)
    (hsite : (parsePath path).parts.head? ≠ some "site") :
    site_anchor_target root path = resolveParts (root ++ "site" :: (parsePath path).parts) ∧
    (∀ (target : List String) (content : String),
      pyLower (pySuffix (target.getLastD "")) = ".html" →
      write_content target content = rewriteCDN content) ∧
    execute_tool ["r"] {} (some "write_file")
      (.obj [("path", .str "index.html"), ("content", .str htmlWithCdn)]) =
      ({ files := [(["r", "site", "index.html"], htmlLocal)],
         dirs := [[], ["r"], ["r", "site"]] },
        .ok (.str ("Wrote /r/site/index.html (" ++ toString htmlLocal.utf8ByteSize ++ " bytes)"))) := by
  refine ⟨?_, ?_, by rfl⟩
  · have h1 : anchorSite (parsePath path) =
        { absolute := false, parts := "site" :: (parsePath path).parts } := by
      unfold anchorSite
      rw [hrel]
      simp [hsite]
    unfold site_anchor_target
    rw [h1]
    rfl
  · intro target content h
    unfold write_content
    rw [if_pos h]

/-- C9 witness: the amended statement applied at a concrete relative path
and at a concrete `.html` target. -/
theorem C9_write_file_site_anchoring_witness :
    site_anchor_target ["r"] "pages/about.html" =
      resolveParts (["r"] ++ "site" :: (parsePath "pages/about.html").parts) ∧
    write_content ["r", "site", "about.html"] htmlWithCdn = rewriteCDN htmlWithCdn :=
  ⟨(C9_write_file_site_anchoring ["r"] "pages/about.html" (by decide) (by decide)).1,
   (C9_write_file_site_anchoring ["r"] "pages/about.html" (by decide) (by decide)).2.1
     ["r", "site", "about.html"] htmlWithCdn (by decide)⟩

/-- C8 counterexample: through the agent's tool surface the round trip
with the same path fails — `write_file` anchors `index.html` under
`site/`, `read_file` does not, so reading back the written path returns
the not-found marker instead of the content. -/
theorem C8_counterexample_agent_roundtrip_misses :
    (execute_tool ["r"]
      (execute_tool ["r"] {} (some "write_file")
        (.obj [("path", .str "index.html"), ("content", .str "hello")])).1
      (some "read_file") (.obj [("path", .str "index.html")])).2 =
      .ok (.str "ERROR: file not found: /r/index.html") ∧
    "ERROR: file not found: /r/index.html" ≠ "hello" := by
  exact ⟨rfl, by decide⟩

/-- A freshly written file is found by the lookup that follows. -/
theorem lookupFile_setFile (fs : FS) (p : List String) (c : String) :
    lookupFile (setFile fs p c) p = some c := by
  unfold lookupFile setFile
  rw [List.find?_append]
  have h1 : (fs.files.filter (fun kv => kv.1 ≠ p)).find? (fun kv => kv.1 = p) = none := by
    rw [List.find?_eq_none]
    intro kv hkv
    have hk := List.of_mem_filter hkv
    simp at hk ⊢
    exact hk
  rw [h1]
  simp

/-- C8 (amended): at the file-helper level the round trip is exact — for
every path that resolves inside the root, writing `content` and then
reading the same path returns exactly `content`; through the agent
dispatch the same-path round trip only holds for `site/`-anchored paths
because writes are anchored and reads are not. -/
theorem C8_write_read_roundtrip (root : List String) (fs : FS) (path content : String)
    (target : List String) (h : _resolve_path root path = .ok target) :
    read_file root (write_file root fs path content).1 path = .ok content := by
  simp [write_file, read_file, h, lookupFile_setFile]

/-- C8 witness: the helper-level round trip at a concrete in-sandbox path,
and the agent-surface round trip at a concrete `site/`-anchored path. -/
theorem C8_write_read_roundtrip_witness :
    read_file ["r"] (write_file ["r"] {} "docs/a.txt" "hi").1 "docs/a.txt" = .ok "hi" :=
  C8_write_read_roundtrip ["r"] {} "docs/a.txt" "hi" ["r", "docs", "a.txt"] rfl

/-- C10: when every retrieval sub-step comes back empty or failing, the
injector returns before the tag filter runs, so the message list is
returned exactly as it was — in particular a retrieval-context message
left over from an earlier turn survives. -/
theorem C10_no_results_leaves_messages_untouched (store : Store) (msgs : List Message)
    (q : String) (k : Nat)
    (h1 : templateHitsOf store q = [])
    (h2 : retrievedDocsOf store q k = []) :
    _append_retrieval_context store msgs q k = (msgs, false) := by
  have hparts : snippetPartsOf store q k = [] := by
    unfold snippetPartsOf
    cases hs : searchHitsOf store q k with
    | none => simp [h1, hs]
    | some res =>
      have hd : res.documents.headD [] = [] := by
        unfold retrievedDocsOf at h2
        rw [hs] at h2
        exact h2
      have hd' : res.documents.head?.getD [] = [] := by simpa using hd
      simp [h1, hs, hd, hd']
  unfold _append_retrieval_context
  rw [hparts]
  rfl

/-- C10 witness: with the retrieval store down, a stale tagged message is
retained untouched. -/
theorem C10_no_results_leaves_messages_untouched_witness :
    _append_retrieval_context storeDown [staleRetrievalMsg] "q" 7 =
      ([staleRetrievalMsg], false) :=
  C10_no_results_leaves_messages_untouched storeDown [staleRetrievalMsg] "q" 7 rfl rfl

/-- Messages surviving the untag filter can never carry the tag. -/
theorem filter_tag_after_untag (msgs : List Message) :
    (msgs.filter (fun m => m.name != some retrieval_tag)).filter
      (fun m => m.name == some retrieval_tag) = [] := by
  rw [List.filter_eq_nil_iff]
  intro m hm
  have h := List.of_mem_filter hm
  simp at h ⊢
  exact h

/-- C6: on success the injector's result is exactly delete-then-append —
the prior messages with the reserved tag are removed and one tagged
message is appended, so one tagged message remains; on failure the list is
unchanged, so at most one tagged message remains whenever at most one was
present, and hence after every call in a real session. -/
theorem C6_retrieval_context_replaced_not_accumulated (store : Store)
    (msgs : List Message) (q : String) (k : Nat) :
    ((_append_retrieval_context store msgs q k).2 = true →
      ∃ s, (_append_retrieval_context store msgs q k).1 =
        (msgs.filter (fun m => m.name != some retrieval_tag)) ++
          [{ role := "system", name := some retrieval_tag, content := s }]) ∧
    ((_append_retrieval_context store msgs q k).2 = false →
      (_append_retrieval_context store msgs q k).1 = msgs) ∧
    ((msgs.filter (fun m => m.name == some retrieval_tag)).length ≤ 1 →
      ((_append_retrieval_context store msgs q k).1.filter
        (fun m => m.name == some retrieval_tag)).length ≤ 1) := by
  unfold _append_retrieval_context
  cases hsp : (snippetPartsOf store q k).isEmpty with
  | true => simp [hsp]
  | false => simp [hsp, List.filter_append, filter_tag_after_untag]

/-- C6 witness: the success path applied with a stale tagged message in
the log: the stale message is removed, the fresh one appended, one tagged
message remains. -/
theorem C6_retrieval_context_replaced_witness :
    (∃ s, (_append_retrieval_context storeOneTemplate [staleRetrievalMsg] "q" 5).1 =
      ([staleRetrievalMsg].filter (fun m => m.name != some retrieval_tag)) ++
        [{ role := "system", name := some retrieval_tag, content := s }]) ∧
    ((_append_retrieval_context storeOneTemplate [staleRetrievalMsg] "q" 5).1.filter
      (fun m => m.name == some retrieval_tag)).length ≤ 1 := by
  have h := C6_retrieval_context_replaced_not_accumulated storeOneTemplate [staleRetrievalMsg] "q" 5
  exact ⟨h.1 rfl, h.2.2 (by decide)⟩

/-- A batch of calls that individually never raise leaves `execBatch`
raise-free from every state. -/
theorem execBatch_no_raise (root : List String) (calls : List JDict)
    (h : ∀ st c, c ∈ calls → (_exec_tool_call root st c).2 = none) :
    ∀ st, (execBatch root st calls).2 = none := by
  induction calls with
  | nil => intro st; rfl
  | cons c cs ih =>
    intro st
    rcases hx : _exec_tool_call root st c with ⟨st', r⟩
    have hr : r = none := by
      have hh := h st c (by simp)
      rw [hx] at hh
      exact hh
    subst hr
    simp only [execBatch, hx]
    exact ih (fun st c hc => h st c (by simp [hc])) st'

/-- Against a model whose every response carries tool calls that execute
without raising, the loop consumes all its fuel and exits through the
guard with the stalled-out string. -/
theorem askLoop_stalls (root : List String) (send : List Message → ModelResp)
    (h1 : ∀ msgs, tcTruthy (effToolCalls (send msgs)) = true)
    (h2 : ∀ msgs st c, c ∈ normCalls (effToolCalls (send msgs)) →
      (_exec_tool_call root st c).2 = none) :
    ∀ fuel st, (askLoop root send fuel st).2 =
      Outcome.answer "Stopped after max iterations." := by
  intro fuel
  induction fuel with
  | zero => intro st; rfl
  | succ n ih =>
    intro st
    have ht := h1 st.messages
    simp only [askLoop, ht, if_true]
    split
    · next st2 heq => exact ih st2
    · next st2 e heq =>
      exfalso
      have hn := execBatch_no_raise root (normCalls (effToolCalls (send st.messages)))
        (fun st' c hc => h2 st.messages st' c hc)
        { st with messages := st.messages ++ [{
            role := ((send st.messages).message.getD emptyAssistant).role.getD "assistant",
            content := ((send st.messages).message.getD emptyAssistant).content.getD "",
            tool_calls := some (normCalls (effToolCalls (send st.messages))) }] }
      rw [heq] at hn
      simp at hn

/-- C3 (amended): for every model that returns tool calls on every single
turn whose execution raises nothing, `ask` terminates through the loop
guard (12 round trips at most, the loop's fuel) and returns the explicit
stalled-out string; a tool call whose execution raises (for example a
sandbox-escaping path, see the counterexample) instead ends `ask` with
that exception. -/
theorem C3_loop_guard_stalls (root : List String) (store : Store)
    (send : List Message → ModelResp)
    (h1 : ∀ msgs, tcTruthy (effToolCalls (send msgs)) = true)
    (h2 : ∀ msgs st c, c ∈ normCalls (effToolCalls (send msgs)) →
      (_exec_tool_call root st c).2 = none) :
    ∀ st input, (ask root store send st input).2 =
      Outcome.answer "Stopped after max iterations." := by
  intro st input
  unfold ask
  exact askLoop_stalls root send h1 h2 12 _

/-- C3 witness: the loop-guard theorem applied to the model that requests
`list_files` on every turn (executing `list_files` never raises). -/
theorem C3_loop_guard_stalls_witness :
    (ask ["r"] storeDown sendListFiles (initState "p") "go").2 =
      Outcome.answer "Stopped after max iterations." :=
  C3_loop_guard_stalls ["r"] storeDown sendListFiles (fun _ => rfl)
    (fun msgs st c hc => by
      have hcl : c = listFilesCall := by
        simpa [sendListFiles, effToolCalls, tcTruthy, normCalls] using hc
      subst hcl
      have hres : _resolve_path ["r"] "." = .ok ["r"] := rfl
      cases hp : pathExists st.fs ["r"] <;>
        simp [_exec_tool_call, finishToolCall, execute_tool, list_files, hres, listFilesCall,
          jLookup, jTruthy, hp, Except.map])
    (initState "p") "go"

/-- The session is seeded satisfying the system-message discipline. -/
theorem SysInv_init (prompt : String) : SysInv prompt (initState prompt).messages := by
  constructor
  · exact ⟨[], rfl, by simp⟩
  · simp [initState, sysPromptMsg, retrieval_tag]

/-- Appending any non-system-role message preserves the discipline. -/
theorem SysInv_append (prompt : String) (msgs : List Message) (m : Message)
    (h : SysInv prompt msgs) (hm : m.role ≠ "system") :
    SysInv prompt (msgs ++ [m]) := by
  obtain ⟨⟨t, hmsgs, htail⟩, hcount⟩ := h
  constructor
  · refine ⟨t ++ [m], by rw [hmsgs]; rfl, ?_⟩
    intro x hx hrole
    rcases List.mem_append.mp hx with hx | hx
    · exact htail x hx hrole
    · simp at hx
      subst hx
      exact absurd hrole hm
  · rw [List.filter_append]
    have hnil : [m].filter (fun m => m.role == "system" && m.name == some retrieval_tag) = [] := by
      simp [hm]
    rw [hnil]
    simpa using hcount

/-- Messages surviving the untag filter are never counted as tagged system
messages. -/
theorem filter_roletag_after_untag (msgs : List Message) :
    (msgs.filter (fun m => m.name != some retrieval_tag)).filter
      (fun m => m.role == "system" && m.name == some retrieval_tag) = [] := by
  rw [List.filter_eq_nil_iff]
  intro m hm
  have h := List.of_mem_filter hm
  simp at h ⊢
  intro _
  exact h

/-- Refreshing the retrieval context preserves the discipline: the prompt
message carries no tag, so it survives the delete pass and stays first,
and the single appended message is a tagged system message. -/
theorem SysInv_retrieval (prompt : String) (store : Store) (msgs : List Message)
    (q : String) (k : Nat) (h : SysInv prompt msgs) :
    SysInv prompt (_append_retrieval_context store msgs q k).1 := by
  unfold _append_retrieval_context
  cases hsp : (snippetPartsOf store q k).isEmpty with
  | true => simpa [hsp] using h
  | false =>
    simp only [hsp, Bool.false_eq_true, if_false]
    obtain ⟨⟨t, hmsgs, htail⟩, hcount⟩ := h
    constructor
    · refine ⟨t.filter (fun m => m.name != some retrieval_tag) ++
        [{ role := "system", name := some retrieval_tag,
           content := String.intercalate "\n\n" (snippetPartsOf store q k) ++ "\n" }], ?_, ?_⟩
      · rw [hmsgs]
        simp [sysPromptMsg]
      · intro x hx hrole
        rcases List.mem_append.mp hx with hx | hx
        · exact htail x (List.mem_of_mem_filter hx) hrole
        · simp at hx
          subst hx
          rfl
    · rw [List.filter_append, filter_roletag_after_untag]
      simp

/-- The tail of a tool call either leaves the message log unchanged (a
raise) or appends exactly one tool-role message. -/
theorem finishToolCall_messages (st : AgentState) (call : JDict)
    (tn : Option String) (r : FS × Except String ToolVal) :
    (finishToolCall st call tn r).1.messages = st.messages ∨
    ∃ m, m.role = "tool" ∧ (finishToolCall st call tn r).1.messages = st.messages ++ [m] := by
  rcases r with ⟨fs, res⟩
  cases res with
  | error e => exact Or.inl rfl
  | ok v => exact Or.inr ⟨_, rfl, rfl⟩

/-- One `_exec_tool_call` either leaves the message log unchanged (a
raise) or appends exactly one tool-role message. -/
theorem exec_tool_call_messages (root : List String) (st : AgentState) (call : JDict) :
    (_exec_tool_call root st call).1.messages = st.messages ∨
    ∃ m, m.role = "tool" ∧ (_exec_tool_call root st call).1.messages = st.messages ++ [m] := by
  exact finishToolCall_messages st call _ _

/-- One tool call preserves the discipline. -/
theorem SysInv_exec_tool_call (prompt : String) (root : List String)
    (st : AgentState) (call : JDict) (h : SysInv prompt st.messages) :
    SysInv prompt (_exec_tool_call root st call).1.messages := by
  rcases exec_tool_call_messages root st call with heq | ⟨m, hrole, heq⟩
  · rw [heq]; exact h
  · rw [heq]
    exact SysInv_append prompt st.messages m h (by simp [hrole])

/-- A batch of tool calls preserves the discipline. -/
theorem SysInv_execBatch (prompt : String) (root : List String) (calls : List JDict) :
    ∀ st, SysInv prompt st.messages →
      SysInv prompt (execBatch root st calls).1.messages := by
  induction calls with
  | nil => intro st h; exact h
  | cons c cs ih =>
    intro st h
    rcases hx : _exec_tool_call root st c with ⟨st', r⟩
    have h' : SysInv prompt st'.messages := by
      have hh := SysInv_exec_tool_call prompt root st c h
      rw [hx] at hh
      exact hh
    cases r with
    | none =>
      simp only [execBatch, hx]
      exact ih st' h'
    | some e =>
      simp only [execBatch, hx]
      exact h'

/-- The embedded-JSON execution loop preserves the discipline. -/
theorem SysInv_execJsonLoop (prompt : String) (root : List String) (frs : List String) :
    ∀ st ex, SysInv prompt st.messages →
      SysInv prompt (execJsonLoop root st ex frs).1.messages := by
  induction frs with
  | nil => intro st ex h; exact h
  | cons f rest ih =>
    intro st ex h
    cases hpf : parseFragment f with
    | none =>
      simp only [execJsonLoop, hpf]
      exact ih st ex h
    | some d =>
      rcases hx : _exec_tool_call root st d with ⟨st', r⟩
      have h' : SysInv prompt st'.messages := by
        have hh := SysInv_exec_tool_call prompt root st d h
        rw [hx] at hh
        exact hh
      cases r with
      | none =>
        simp only [execJsonLoop, hpf, hx]
        exact ih st' true h'
      | some e =>
        simp only [execJsonLoop, hpf, hx]
        exact h'

/-- The whole loop preserves the discipline when the model's replies carry
the assistant role. -/
theorem SysInv_askLoop (prompt : String) (root : List String)
    (send : List Message → ModelResp) (hg : GoodSend send) :
    ∀ fuel st, SysInv prompt st.messages →
      SysInv prompt (askLoop root send fuel st).1.messages := by
  intro fuel
  induction fuel with
  | zero => intro st h; exact h
  | succ n ih =>
    intro st h
    have hrole : (((send st.messages).message.getD emptyAssistant).role.getD "assistant") =
        "assistant" := hg st.messages
    have hasst : SysInv prompt (st.messages ++ [({
        role := ((send st.messages).message.getD emptyAssistant).role.getD "assistant",
        content := ((send st.messages).message.getD emptyAssistant).content.getD "",
        tool_calls := some (normCalls (effToolCalls (send st.messages))) } : Message)]) :=
      SysInv_append prompt st.messages _ h (by simp [hrole])
    have hfinal : SysInv prompt (st.messages ++ [({
        role := ((send st.messages).message.getD emptyAssistant).role.getD "assistant",
        content := ((send st.messages).message.getD emptyAssistant).content.getD "" } : Message)]) :=
      SysInv_append prompt st.messages _ h (by simp [hrole])
    simp only [askLoop]
    split
    · split
      · next st2 heq =>
        refine ih st2 ?_
        have hb := SysInv_execBatch prompt root
          (normCalls (effToolCalls (send st.messages)))
          ({ st with messages := st.messages ++ [{
            role := ((send st.messages).message.getD emptyAssistant).role.getD "assistant",
            content := ((send st.messages).message.getD emptyAssistant).content.getD "",
            tool_calls := some (normCalls (effToolCalls (send st.messages))) }] }) hasst
        rw [heq] at hb
        exact hb
      · next st2 e heq =>
        have hb := SysInv_execBatch prompt root
          (normCalls (effToolCalls (send st.messages)))
          ({ st with messages := st.messages ++ [{
            role := ((send st.messages).message.getD emptyAssistant).role.getD "assistant",
            content := ((send st.messages).message.getD emptyAssistant).content.getD "",
            tool_calls := some (normCalls (effToolCalls (send st.messages))) }] }) hasst
        rw [heq] at hb
        exact hb
    · split
      · exact hfinal
      · split
        · next st' b e heq =>
          have hj := SysInv_execJsonLoop prompt root
            (fragmentsOf (((send st.messages).message.getD emptyAssistant).content.getD ""))
            st false h
          rw [show _execute_json_tool_calls root st
              (((send st.messages).message.getD emptyAssistant).content.getD "") =
              execJsonLoop root st false
                (fragmentsOf (((send st.messages).message.getD emptyAssistant).content.getD ""))
              from rfl] at heq
          rw [heq] at hj
          exact hj
        · next st' heq =>
          refine ih st' ?_
          have hj := SysInv_execJsonLoop prompt root
            (fragmentsOf (((send st.messages).message.getD emptyAssistant).content.getD ""))
            st false h
          rw [show _execute_json_tool_calls root st
              (((send st.messages).message.getD emptyAssistant).content.getD "") =
              execJsonLoop root st false
                (fragmentsOf (((send st.messages).message.getD emptyAssistant).content.getD ""))
              from rfl] at heq
          rw [heq] at hj
          exact hj
        · next st' heq =>
          have hj := SysInv_execJsonLoop prompt root
            (fragmentsOf (((send st.messages).message.getD emptyAssistant).content.getD ""))
            st false h
          rw [show _execute_json_tool_calls root st
              (((send st.messages).message.getD emptyAssistant).content.getD "") =
              execJsonLoop root st false
                (fragmentsOf (((send st.messages).message.getD emptyAssistant).content.getD ""))
              from rfl] at heq
          rw [heq] at hj
          exact SysInv_append prompt st'.messages _ hj (by simp [hrole])

/-- One whole `ask` preserves the discipline. -/
theorem SysInv_ask (prompt : String) (root : List String) (store : Store)
    (send : List Message → ModelResp) (st : AgentState) (input : String)
    (hg : GoodSend send) (h : SysInv prompt st.messages) :
    SysInv prompt (ask root store send st input).1.messages := by
  unfold ask
  exact SysInv_askLoop prompt root send hg 12 _
    (SysInv_retrieval prompt store _ input 20
      (SysInv_append prompt st.messages _ h (by simp)))

/-- C5 (amended): retrieval grounding is itself injected with role
`system` (so "exactly one system message" is false, see the
counterexample); what every reachable state of a session driven by
assistant-role replies does maintain is: the system prompt is the unique
untagged system-role message and sits first, every other system-role
message carries the retrieval tag, and at most one such tagged message
exists at any time. -/
theorem C5_system_prompt_invariant (root : List String) (prompt : String)
    (st : AgentState) (h : Reachable root prompt st) :
    SysInv prompt st.messages := by
  induction h with
  | init => exact SysInv_init prompt
  | step st' store send input hr hg ih =>
    exact SysInv_ask prompt root store send st' input hg ih

/-- C5 witness: the invariant holds at the freshly initialised session. -/
theorem C5_system_prompt_invariant_witness :
    SysInv "p" (initState "p").messages :=
  C5_system_prompt_invariant ["r"] "p" (initState "p") Reachable.init

end Locable
